import Mathlib

/-!
Shallow embedding of `legacy-notion-local-mcp`:
a terminal chat client (`src/chat-client.ts`, class `TerminalChatClient`)
that spawns an MCP server subprocess (`src/mcp-server.ts`, class
`NotionMCPServer`) and talks line-delimited JSON-RPC to it over pipes.

JavaScript values flowing through the protocol are modelled by `JVal`
(the JSON data model; `undefined` is modelled as absence, i.e. `Option JVal`
whose `none` is `undefined`).  JS numbers are modelled as integers, which
covers every value the protocol layer manipulates (correlation ids, limits,
page sizes); `NaN` is modelled where it matters for truthiness (`JSNum`).
Strings are modelled as `String` / `List Char`.
-/

/-- JSON value, the structural data model for everything crossing the wire. -/
inductive JVal where
  | null
  | bool (b : Bool)
  | num (n : Int)
  | str (s : String)
  | arr (elems : List JVal)
  | obj (fields : List (String × JVal))

/-- JS truthiness of a defined value (`undefined` is handled by `Option`). -/
def jTruthy : JVal → Bool
  | .null => false
  | .bool b => b
  | .num n => n != 0
  | .str s => s ≠ ""
  | .arr _ => true
  | .obj _ => true

/-- Truthiness of a possibly-`undefined` value. -/
def jTruthyOpt : Option JVal → Bool
  | none => false
  | some v => jTruthy v

/-- Property access `v[k]` on a JSON value: a field of an object, `undefined`
(i.e. `none`) on anything else (named properties of primitives and arrays
are absent in the JSON data model). -/
def jGet : JVal → String → Option JVal
  | .obj fs, k => List.lookup k fs
  | _, _ => none

/-- Property access through a possibly-`undefined` receiver. -/
def jGetOpt : Option JVal → String → Option JVal
  | some v, k => jGet v k
  | none, _ => none

/-- JS `a || b` on a possibly-`undefined` left operand. -/
def jsOr (a : Option JVal) (b : JVal) : JVal :=
  match a with
  | some v => if jTruthy v then v else b
  | none => b

mutual

/-- JS `String(v)` coercion, on the JSON data model. -/
def jsToString : JVal → String
  | .null => "null"
  | .bool b => if b then "true" else "false"
  | .num n => toString n
  | .str s => s
  | .arr xs => String.intercalate "," (jsToStringElems xs)
  | .obj _ => "[object Object]"

/-- Element coercion of `Array.prototype.toString`: `null` prints empty. -/
def jsToStringElems : List JVal → List String
  | [] => []
  | .null :: xs => "" :: jsToStringElems xs
  | x :: xs => jsToString x :: jsToStringElems xs

end

/-- Escape one character as inside a JSON string literal. -/
def jsonEscapeChar (c : Char) : String :=
  if c = '"' then "\\\""
  else if c = '\\' then "\\\\"
  else if c = '\n' then "\\n"
  else if c = '\r' then "\\r"
  else if c = '\t' then "\\t"
  else String.singleton c

/-- JSON string literal for `s` (common escapes; control characters other
than the escaped ones do not occur in the values considered here). -/
def jsonEscape (s : String) : String :=
  "\"" ++ String.join (s.data.map jsonEscapeChar) ++ "\""

mutual

/-- JS `JSON.stringify` on the JSON data model. -/
def jsonStringify : JVal → String
  | .null => "null"
  | .bool b => if b then "true" else "false"
  | .num n => toString n
  | .str s => jsonEscape s
  | .arr xs => "[" ++ String.intercalate "," (jsonStringifyElems xs) ++ "]"
  | .obj fs => "\x7b" ++ String.intercalate "," (jsonStringifyFields fs) ++ "\x7d"

def jsonStringifyElems : List JVal → List String
  | [] => []
  | x :: xs => jsonStringify x :: jsonStringifyElems xs

def jsonStringifyFields : List (String × JVal) → List String
  | [] => []
  | (k, v) :: fs => (jsonEscape k ++ ":" ++ jsonStringify v) :: jsonStringifyFields fs

end

/-! ### JSON parsing (`JSON.parse`), as used by the client on response lines.

Recursive-descent parser over `List Char`, fuelled by the input length.
It covers the grammar the protocol emits: objects, arrays, strings with
the common escapes, integer numbers, `true`/`false`/`null`, whitespace. -/

/-- JSON whitespace. -/
def jsonWs (c : Char) : Bool :=
  c = ' ' || c = '\t' || c = '\n' || c = '\r'

def skipWs : List Char → List Char
  | c :: cs => if jsonWs c then skipWs cs else c :: cs
  | [] => []

/-- Unescape after a backslash inside a JSON string literal. -/
def jsonUnescapeChar : Char → Option Char
  | '"' => some '"'
  | '\\' => some '\\'
  | '/' => some '/'
  | 'b' => some '\x08'
  | 'f' => some '\x0c'
  | 'n' => some '\n'
  | 'r' => some '\r'
  | 't' => some '\t'
  | _ => none

/-- Parse the body of a string literal (opening quote already consumed),
returning the characters and the rest of the input. -/
def parseStrChars : List Char → Option (List Char × List Char)
  | [] => none
  | '"' :: cs => some ([], cs)
  | '\\' :: [] => none
  | '\\' :: e :: cs =>
    match jsonUnescapeChar e with
    | some c => (parseStrChars cs).map (fun p => (c :: p.1, p.2))
    | none => none
  | c :: cs => (parseStrChars cs).map (fun p => (c :: p.1, p.2))

/-- Accumulate decimal digits. -/
def digitsAcc : Nat → List Char → Nat × List Char
  | acc, c :: cs => if c.isDigit then digitsAcc (acc * 10 + (c.toNat - 48)) cs else (acc, c :: cs)
  | acc, [] => (acc, [])

/-- After an integer literal, a fraction or exponent marker is outside the
integer subset handled here. -/
def numBreakOk : List Char → Bool
  | c :: _ => ¬ (c = '.' || c = 'e' || c = 'E')
  | [] => true

/-- Parse a JSON number (integer subset: an optional minus and digits). -/
def parseNum : List Char → Option (JVal × List Char)
  | '-' :: c :: cs =>
    if c.isDigit then
      let p := digitsAcc 0 (c :: cs)
      if numBreakOk p.2 then some (.num (-(Int.ofNat p.1)), p.2) else none
    else none
  | c :: cs =>
    if c.isDigit then
      let p := digitsAcc 0 (c :: cs)
      if numBreakOk p.2 then some (.num (Int.ofNat p.1), p.2) else none
    else none
  | [] => none

mutual

/-- Parse one JSON value; `fuel` bounds the recursion depth. -/
def parseVal : Nat → List Char → Option (JVal × List Char)
  | 0, _ => none
  | fuel + 1, cs =>
    match skipWs cs with
    | [] => none
    | c :: rest =>
      if c = '\x7b' then
        match skipWs rest with
        | '\x7d' :: r2 => some (.obj [], r2)
        | r2 => parseFields fuel r2 []
      else if c = '[' then
        match skipWs rest with
        | ']' :: r2 => some (.arr [], r2)
        | r2 => parseElems fuel r2 []
      else if c = '"' then
        (parseStrChars rest).map (fun p => (.str (String.mk p.1), p.2))
      else if c = 't' then
        match rest with
        | 'r' :: 'u' :: 'e' :: r2 => some (.bool true, r2)
        | _ => none
      else if c = 'f' then
        match rest with
        | 'a' :: 'l' :: 's' :: 'e' :: r2 => some (.bool false, r2)
        | _ => none
      else if c = 'n' then
        match rest with
        | 'u' :: 'l' :: 'l' :: r2 => some (.null, r2)
        | _ => none
      else
        parseNum (c :: rest)

/-- Parse the members of an object (after at least one member is known to
follow), accumulating parsed fields. -/
def parseFields : Nat → List Char → List (String × JVal) → Option (JVal × List Char)
  | 0, _, _ => none
  | fuel + 1, cs, acc =>
    match skipWs cs with
    | '"' :: rest =>
      match parseStrChars rest with
      | none => none
      | some (key, r2) =>
        match skipWs r2 with
        | ':' :: r3 =>
          match parseVal fuel r3 with
          | none => none
          | some (v, r4) =>
            match skipWs r4 with
            | ',' :: r5 => parseFields fuel r5 (acc ++ [(String.mk key, v)])
            | '\x7d' :: r5 => some (.obj (acc ++ [(String.mk key, v)]), r5)
            | _ => none
        | _ => none
    | _ => none

/-- Parse the elements of an array (after at least one element is known to
follow), accumulating parsed elements. -/
def parseElems : Nat → List Char → List JVal → Option (JVal × List Char)
  | 0, _, _ => none
  | fuel + 1, cs, acc =>
    match parseVal fuel cs with
    | none => none
    | some (v, r) =>
      match skipWs r with
      | ',' :: r2 => parseElems fuel r2 (acc ++ [v])
      | ']' :: r2 => some (.arr (acc ++ [v]), r2)
      | _ => none

end

/-- JS `JSON.parse`: one value, surrounding whitespace allowed, the whole
input must be consumed; `none` models a thrown `SyntaxError`. -/
def parseJson (s : String) : Option JVal :=
  match parseVal (s.data.length + 1) s.data with
  | some (v, rest) => if skipWs rest = [] then some v else none
  | none => none

/-! ## Client side: `TerminalChatClient` (src/chat-client.ts)

The pending-request map `Map<number, {resolve, reject}>` is modelled by the
list of its keys (`List Nat`): an entry's two callbacks are pure channels,
so fulfilment is modelled by emitting an `MCPOutcome` labelled with the id.
The JS `Map` holds pairwise-distinct keys. -/

namespace TerminalChatClient

/-- How the callbacks of one pending entry fire: `resolved` is
`pending.resolve(response.result)`, `errorRejected` is
`pending.reject(new Error(response.error.message))` in the response handler,
and `timeoutRejected` is `reject(new Error('MCP 응답 타임아웃'))` in the
timer callback of `sendMCPRequest`. -/
inductive MCPOutcome where
  | resolved (result : Option JVal)
  | errorRejected (message : String)
  | timeoutRejected

/-- Splitting on a line-break character, JS `s.split('\n')`. -/
def splitOnNl : List Char → List (List Char)
  | [] => [[]]
  | c :: cs =>
    if c = '\n' then [] :: splitOnNl cs
    else
      match splitOnNl cs with
      | l :: ls => (c :: l) :: ls
      | [] => [[c]]

/-- JS whitespace removed by `String.prototype.trim`. -/
def jsWs (c : Char) : Bool :=
  c = ' ' || c = '\t' || c = '\n' || c = '\r' || c = '\x0b' || c = '\x0c'

/-- JS `line.trim()`. -/
def jsTrim (l : List Char) : List Char :=
  ((l.dropWhile jsWs).reverse.dropWhile jsWs).reverse

/-- The lines a chunk is processed as:
`data.toString().split('\n').filter(line => line.trim())`. -/
def chunkLines (data : String) : List String :=
  ((splitOnNl data.data).filter (fun l => jsTrim l ≠ [])).map String.mk

/-- The key `this.pendingRequests.get(response.id)` is looked up under: a
numeric, non-negative `id` (the map only ever holds such keys, so any other
`id` value misses). -/
def respIdOf (resp : JVal) : Option Nat :=
  match jGet resp "id" with
  | some (.num n) => if 0 ≤ n then some n.toNat else none
  | _ => none

/-- The message carried by `new Error(response.error.message)`. -/
def errMessageOf (err : JVal) : String :=
  match jGet err "message" with
  | some m => jsToString m
  | none => ""

/-- Processing of one (complete, non-blank) line by the body of the `for`
loop in `handleMCPResponse`: parse it as JSON, look up the pending entry by
`response.id`; when found, delete the entry and then fire its callback
(reject with the carried error message when `response.error` is truthy,
resolve with `response.result` otherwise); when not found, or on a parse
failure, do nothing. -/
def handleMCPLine (pending : List Nat) (line : String) :
    List Nat × List (Nat × MCPOutcome) :=
  match parseJson line with
  | none => (pending, [])
  | some resp =>
    match respIdOf resp with
    | none => (pending, [])
    | some id =>
      if id ∈ pending then
        let pending' := pending.erase id
        if jTruthyOpt (jGet resp "error") then
          match jGet resp "error" with
          | some err => (pending', [(id, .errorRejected (errMessageOf err))])
          | none => (pending', [(id, .resolved (jGet resp "result"))])
        else
          (pending', [(id, .resolved (jGet resp "result"))])
      else (pending, [])

/-- `handleMCPResponse(data)`: split the chunk into lines, drop blank ones,
and run the loop body on each line in order.  The handler is invoked with
only the current chunk and the pending map — the class has no field
carrying a partial line over to the next `data` event. -/
def handleMCPResponse (pending : List Nat) (data : String) :
    List Nat × List (Nat × MCPOutcome) :=
  (chunkLines data).foldl
    (fun acc line =>
      let r := handleMCPLine acc.1 line
      (r.1, acc.2 ++ r.2))
    (pending, [])

/-- `getNextId(): number { return ++this.requestId; }` — state-passing form:
from counter value `requestId`, the new counter value and the returned id. -/
def getNextId (requestId : Nat) : Nat × Nat :=
  (requestId + 1, requestId + 1)

/-- Initial value of the field `private requestId = 0`. -/
def initialRequestId : Nat := 0

/-- The ids produced by `n` consecutive `getNextId()` calls from counter
value `c`, in allocation order. -/
def allocIds : Nat → Nat → List Nat
  | _, 0 => []
  | c, n + 1 =>
    let r := getNextId c
    r.2 :: allocIds r.1 n

/-- The ids allocated by the first `n` calls of one session (the counter
starts at `initialRequestId` and is never written elsewhere). -/
def sessionIds (n : Nat) : List Nat :=
  allocIds initialRequestId n

/-- The request timeout: `setTimeout(..., 20000)`. -/
def mcpTimeoutMs : Nat := 20000

/-- `sendMCPRequest`: arms a timer of `mcpTimeoutMs` milliseconds and stores
the pending entry under the request's id
(`this.pendingRequests.set(request.id, ...)`); returns the updated map and
the armed duration. -/
def sendMCPRequest (pending : List Nat) (id : Nat) : List Nat × Nat :=
  ((if id ∈ pending then pending else pending ++ [id]), mcpTimeoutMs)

/-- The timer callback armed by `sendMCPRequest`:
`this.pendingRequests.delete(request.id); reject(new Error('MCP 응답 타임아웃'))`. -/
def onMCPTimeout (pending : List Nat) (id : Nat) :
    List Nat × (Nat × MCPOutcome) :=
  (pending.erase id, (id, .timeoutRejected))

/-- What the `exit` listener does besides logging. -/
structure ExitEffect where
  /-- Entries of the pending map rejected by the listener. -/
  rejected : List (Nat × MCPOutcome)
  /-- Whether the listener calls `process.exit(1)`. -/
  clientExits : Bool

/-- The `exit` listener installed by `initializeMCP`:
`if (code !== 0) { ...; process.exit(1) }`.  `code` is `none` when the
subprocess was killed by a signal (JS `null`). -/
def onProcessExit (code : Option Int) (pending : List Nat) :
    List Nat × ExitEffect :=
  if code ≠ some 0 then (pending, ⟨[], true⟩) else (pending, ⟨[], false⟩)

end TerminalChatClient

/-! ## Server side: `NotionMCPServer` (src/mcp-server.ts)

The Notion content provider (`@notionhq/client`) is the external
collaborator: it is a parameter (`ProviderEnv`) mapping the request each
handler builds to either a thrown failure (`Except.error`) or a result
list.  `new Date(x).getTime()` is likewise a parameter (`dateMs`). -/

namespace NotionMCPServer

/-- JS number as it appears in a tool argument typed `number`. -/
inductive JSNum where
  | nan
  | int (n : Int)

/-- JS `(x as number) || d`: `undefined`, `NaN` and `0` are falsy. -/
def jsNumOrDefault : Option JSNum → Int → Int
  | none, d => d
  | some .nan, d => d
  | some (.int n), d => if n = 0 then d else n

/-- The request object handed to `notion.search(...)`. -/
structure NotionSearchRequest where
  query : Option JVal
  pageSize : Int
  filterValue : String
  filterProperty : String
  sortDirection : Option String
  sortTimestamp : Option String

/-- The request object handed to `notion.blocks.children.list(...)`. -/
structure BlocksRequest where
  blockId : Option JVal
  pageSize : Nat

/-- The external collaborators: the Notion client's two operations (each
returning its `results` array or throwing), and `Date` parsing. -/
structure ProviderEnv where
  search : NotionSearchRequest → Except String (List JVal)
  listBlocks : BlocksRequest → Except String (List JVal)
  dateMs : Option JVal → Int

/-- `'k' in v` (only evaluated behind a `typeof v === 'object'` guard). -/
def jHasProp : JVal → String → Bool
  | .obj fs, k => (List.lookup k fs).isSome
  | .arr xs, k =>
    k = "length" || (match k.toNat? with
                     | some i => i < xs.length
                     | none => false)
  | _, _ => false

/-- `typeof v === 'object'` (true for objects, arrays and `null`). -/
def jTypeofObject : JVal → Bool
  | .obj _ => true
  | .arr _ => true
  | .null => true
  | _ => false

/-- JS `Object.entries(v)`: fields of an object, indexed elements of an
array, indexed characters of a string, nothing for other primitives. -/
def jEntries : JVal → List (String × JVal)
  | .obj fs => fs
  | .arr xs => xs.enum.map (fun p => (toString p.1, p.2))
  | .str s => s.data.enum.map (fun p => (toString p.1, .str (String.singleton p.2)))
  | _ => []

/-- The guard of `extractTitle`'s loop:
`value && typeof value === 'object' && 'type' in value && value.type === 'title'`. -/
def isTitleProp (v : JVal) : Bool :=
  jTruthy v && jTypeofObject v && jHasProp v "type" &&
    (match jGet v "type" with
     | some (.str s) => s = "title"
     | _ => false)

/-- The value `titleData.title[0]` when
`titleData.title && Array.isArray(titleData.title) && titleData.title.length > 0`
holds, `none` otherwise (the loop then continues). -/
def titleHead (v : JVal) : Option JVal :=
  match jGet v "title" with
  | some (.arr (t0 :: _)) => some t0
  | _ => none

/-- One loop iteration of `extractTitle`: the entry's value yields a result
exactly when both guards pass. -/
def titleCandidate (v : JVal) : Option JVal :=
  if isTitleProp v then titleHead v else none

/-- `extractTitle(page)`.  The return is a `JVal` because
`titleData.title[0].plain_text` need not be a string; callers stringify it.
When `title[0]` is a primitive, `.plain_text` is `undefined` (or, on
`null`, throws into the surrounding `catch`): both give `'Untitled'`,
matching `jGet`'s `none`. -/
def extractTitle (page : JVal) : JVal :=
  match jGet page "properties" with
  | none => .str "Untitled"
  | some props =>
    if ¬ jTruthy props then .str "Untitled"
    else
      match (jEntries props).findSome? (fun kv => titleCandidate kv.2) with
      | some t0 => jsOr (jGet t0 "plain_text") (.str "Untitled")
      | none => .str "Untitled"

/-- One element of the `rich_text.map((text) => text.plain_text || '')`
loop, as the string it contributes to `.join('')`; `none` models the
`TypeError` thrown by property access on a `null` element (which the
surrounding `catch` turns into `''`). -/
def richTextItem (t : JVal) : Option String :=
  match t with
  | .null => none
  | _ =>
    some (match jGet t "plain_text" with
          | some v => if jTruthy v then jsToString v else ""
          | none => "")

/-- `xs.map((text) => text.plain_text || '').join('')`, `none` on a thrown
element access. -/
def joinRichText (xs : List JVal) : Option String :=
  (xs.mapM richTextItem).map String.join

/-- The guard `blockData.f && Array.isArray(blockData.f)` for a field
value `o`: truthy and an array. -/
def hasArrayField (o : Option JVal) : Bool :=
  match o with
  | some (.arr _) => true
  | _ => false

/-- The body returned under that guard:
`o.map((text) => text.plain_text || '').join('')`. -/
def joinArrayField (o : Option JVal) : String :=
  match o with
  | some (.arr xs) => (joinRichText xs).getD ""
  | _ => ""

/-- `extractBlockText(block)`. -/
def extractBlockText (block : JVal) : String :=
  if ¬ jTruthy block then ""
  else
    match jGet block "type" with
    | none => ""
    | some typeVal =>
      if ¬ jTruthy typeVal then ""
      else
        match jGet block (jsToString typeVal) with
        | none => ""
        | some blockData =>
          if ¬ jTruthy blockData then ""
          else
            if hasArrayField (jGet blockData "rich_text") then
              joinArrayField (jGet blockData "rich_text")
            else if hasArrayField (jGet blockData "text") then
              joinArrayField (jGet blockData "text")
            else ""

/-- The filter applied to every provider item:
`item.object === 'page' && 'properties' in item`. -/
def pageFilter (item : JVal) : Bool :=
  (match jGet item "object" with
   | some (.str s) => s = "page"
   | _ => false) && jHasProp item "properties"

/-- The request built by `searchNotion` (source lines building
`notion.search({query, page_size: Math.min(limit, 100), filter})`). -/
def searchNotionRequest (query : Option JVal) (limit : Int) : NotionSearchRequest :=
  { query := query
    pageSize := min limit 100
    filterValue := "page"
    filterProperty := "object"
    sortDirection := none
    sortTimestamp := none }

/-- The request built by `listRecentPages`. -/
def listRecentPagesRequest (limit : Int) : NotionSearchRequest :=
  { query := none
    pageSize := min limit 100
    filterValue := "page"
    filterProperty := "object"
    sortDirection := some "descending"
    sortTimestamp := some "last_edited_time" }

/-- The request built by `getPageTitlesOnly`: `query` is only attached when
truthy (`if (query) searchParams.query = query`). -/
def getPageTitlesOnlyRequest (query : Option JVal) (limit : Int) : NotionSearchRequest :=
  { query := if jTruthyOpt query then query else none
    pageSize := min limit 100
    filterValue := "page"
    filterProperty := "object"
    sortDirection := none
    sortTimestamp := none }

/-- The request built by `listAllPages`. -/
def listAllPagesRequest (limit : Int) : NotionSearchRequest :=
  { query := none
    pageSize := min limit 100
    filterValue := "page"
    filterProperty := "object"
    sortDirection := some "descending"
    sortTimestamp := some "last_edited_time" }

/-- The loop of `getPagePreview`: append each block's nonblank text plus a
space, stopping once the accumulated preview exceeds 200 characters. -/
def previewFold : List JVal → String → String
  | [], preview => preview
  | b :: bs, preview =>
    let blockText := extractBlockText b
    if blockText.trim ≠ "" then
      let preview' := preview ++ blockText ++ " "
      if preview'.length > 200 then preview' else previewFold bs preview'
    else previewFold bs preview

/-- `getPagePreview(pageId)`: list up to 3 child blocks and join their
texts; `'Preview unavailable'` on a provider failure,
`'No preview available'` when nothing accumulates. -/
def getPagePreview (env : ProviderEnv) (pageId : Option JVal) : String :=
  match env.listBlocks ⟨pageId, 3⟩ with
  | .error _ => "Preview unavailable"
  | .ok blocks =>
    let preview := previewFold blocks ""
    if preview.trim = "" then "No preview available" else preview.trim

/-- One result record pushed by `searchNotion`'s loop (fields absent on the
item appear as `null`; `JSON.stringify` output differences for that corner
are not load-bearing). -/
def searchResultOf (env : ProviderEnv) (item : JVal) : JVal :=
  .obj [("id", (jGet item "id").getD .null),
        ("title", extractTitle item),
        ("content", .str (getPagePreview env (jGet item "id"))),
        ("url", jsOr (jGet item "url") (.str "")),
        ("type", .str "page")]

/-- `searchNotion(query, limit)`: search with the clamped page size, keep
page items, build result records; `[]` on a provider failure. -/
def searchNotion (env : ProviderEnv) (query : Option JVal) (limit : Int) : List JVal :=
  match env.search (searchNotionRequest query limit) with
  | .error _ => []
  | .ok items => (items.filter pageFilter).map (searchResultOf env)

/-- One record pushed by `listRecentPages` / `listAllPages`. -/
def recentPageOf (item : JVal) : JVal :=
  .obj [("id", (jGet item "id").getD .null),
        ("title", extractTitle item),
        ("created_time", (jGet item "created_time").getD .null),
        ("last_edited_time", (jGet item "last_edited_time").getD .null),
        ("url", jsOr (jGet item "url") (.str ""))]

/-- `listRecentPages(limit, sortBy)`: the provider sorts by last-edited
time; for `sortBy === "created_time"` the results are re-sorted client-side
descending by `new Date(created_time).getTime()`; `[]` on failure. -/
def listRecentPages (env : ProviderEnv) (limit : Int) (sortBy : JVal) : List JVal :=
  match env.search (listRecentPagesRequest limit) with
  | .error _ => []
  | .ok items =>
    let results := (items.filter pageFilter).map recentPageOf
    if (match sortBy with | .str s => s == "created_time" | _ => false) then
      results.mergeSort (fun a b =>
        env.dateMs (jGet b "created_time") ≤ env.dateMs (jGet a "created_time"))
    else results

/-- One record of `getPageTitlesOnly`. -/
def titleOnlyOf (item : JVal) : JVal :=
  .obj [("id", (jGet item "id").getD .null),
        ("title", extractTitle item),
        ("url", jsOr (jGet item "url") (.str ""))]

/-- `getPageTitlesOnly(query, limit)`; `[]` on a provider failure. -/
def getPageTitlesOnly (env : ProviderEnv) (query : Option JVal) (limit : Int) : List JVal :=
  match env.search (getPageTitlesOnlyRequest query limit) with
  | .error _ => []
  | .ok items => (items.filter pageFilter).map titleOnlyOf

/-- `listAllPages(limit)`; `[]` on a provider failure. -/
def listAllPages (env : ProviderEnv) (limit : Int) : List JVal :=
  match env.search (listAllPagesRequest limit) with
  | .error _ => []
  | .ok items => (items.filter pageFilter).map recentPageOf

/-- The accumulation loop of `getPageContent`: append each block's nonblank
text and a newline. -/
def contentFold (blocks : List JVal) : String :=
  blocks.foldl
    (fun content b =>
      let blockText := extractBlockText b
      if blockText.trim ≠ "" then content ++ blockText ++ "\n" else content)
    ""

/-- `getPageContent(pageId)`: `'Error retrieving content'` on a provider
failure, `'No content found'` when nothing accumulates. -/
def getPageContent (env : ProviderEnv) (pageId : Option JVal) : String :=
  match env.listBlocks ⟨pageId, 100⟩ with
  | .error _ => "Error retrieving content"
  | .ok blocks =>
    let content := contentFold blocks
    if content.trim = "" then "No content found" else content.trim

/-- The argument bag of a `tools/call` request, as the handler unpacks it
(`(args as any).query`, `.limit`, `.sort`, `.pageId`). -/
structure CallArgs where
  query : Option JVal := none
  limit : Option JSNum := none
  sort : Option JVal := none
  pageId : Option JVal := none

/-- The wire shape the call handler returns:
`{content: [{type: "text", text}], isError?}`. -/
structure CallToolResult where
  text : String
  isError : Bool

/-- The five names the `switch` dispatches on. -/
def knownTools : List String :=
  ["search_notion", "list_recent_pages", "get_page_titles_only",
   "list_all_pages", "get_page_content"]

/-- The `try` block of the `CallToolRequestSchema` handler: the `switch`
over the tool name; the `default` case throws `Unknown tool: ${name}`. -/
def callToolBody (env : ProviderEnv) (name : String) (args : CallArgs) :
    Except String CallToolResult :=
  if name = "search_notion" then
    let limit := jsNumOrDefault args.limit 10
    .ok ⟨jsonStringify (.arr (searchNotion env args.query limit)), false⟩
  else if name = "list_recent_pages" then
    let limit := jsNumOrDefault args.limit 10
    let sort := jsOr args.sort (.str "last_edited_time")
    .ok ⟨jsonStringify (.arr (listRecentPages env limit sort)), false⟩
  else if name = "get_page_titles_only" then
    let limit := jsNumOrDefault args.limit 10
    .ok ⟨jsonStringify (.arr (getPageTitlesOnly env args.query limit)), false⟩
  else if name = "list_all_pages" then
    let limit := jsNumOrDefault args.limit 20
    .ok ⟨jsonStringify (.arr (listAllPages env limit)), false⟩
  else if name = "get_page_content" then
    .ok ⟨getPageContent env args.pageId, false⟩
  else
    .error ("Unknown tool: " ++ name)

/-- The whole handler: the `catch` turns any thrown message into a normal
response record `{content: [{text: JSON.stringify({error})}], isError: true}`. -/
def callToolHandler (env : ProviderEnv) (name : String) (args : CallArgs) :
    CallToolResult :=
  match callToolBody env name args with
  | .ok r => r
  | .error msg => ⟨jsonStringify (.obj [("error", .str msg)]), true⟩

end NotionMCPServer

/-! ## Helper definitions used to state the claims -/

namespace TerminalChatClient

/-- The pending-map key a line carries: the id under which
`handleMCPResponse` would look up a pending entry (some non-negative
numeric `id` field of a line that parses as JSON). -/
def lineRespId (line : String) : Option Nat :=
  match parseJson line with
  | some resp => respIdOf resp
  | none => none

end TerminalChatClient

namespace NotionMCPServer

/-- A well-formed title property is present on `page`: a truthy
`properties` bag holding some entry that passes both guards of
`extractTitle`'s loop (a title-typed object with a nonempty title array). -/
def wellFormedTitleProp (page : JVal) : Bool :=
  match jGet page "properties" with
  | none => false
  | some props =>
    jTruthy props && (jEntries props).any (fun kv => (titleCandidate kv.2).isSome)

/-- The block reaches one of the two rich-text joins of `extractBlockText`:
the block and its `type` are truthy, the data under the type key is truthy,
and it has an array-valued `rich_text` or `text` field. -/
def blockTextFieldsPresent (block : JVal) : Bool :=
  if ¬ jTruthy block then false
  else
    match jGet block "type" with
    | none => false
    | some typeVal =>
      if ¬ jTruthy typeVal then false
      else
        match jGet block (jsToString typeVal) with
        | none => false
        | some blockData =>
          if ¬ jTruthy blockData then false
          else
            hasArrayField (jGet blockData "rich_text") ||
              hasArrayField (jGet blockData "text")

end NotionMCPServer

/-! ## Theorems -/

open TerminalChatClient NotionMCPServer

/-- The ids of consecutive `getNextId()` calls from counter `c` form the
integer range starting at `c + 1`. -/
theorem allocIds_eq_range' (c n : Nat) : allocIds c n = List.range' (c + 1) n := by
  induction n generalizing c with
  | zero => rfl
  | succ k ih =>
    rw [List.range'_succ]
    simp [allocIds, getNextId, ih]

/-- Claim C1: the spec requires the client to hold a trailing partial line
for the next chunk so that a record split mid-record is reassembled into
exactly one parsed response fulfilling exactly one pending entry.
`handleMCPResponse` has no cross-chunk buffer: with entry 1 pending and the
record `\x7b"id":1,"result":\x7b\x7d\x7d\n` delivered split after `"res`,
both chunks are processed in isolation, both fragments fail to parse, no
entry is fulfilled and id 1 stays pending — whereas the same record
delivered whole fulfils it.  This contradicts the claim (a code bug: zero
fulfilments instead of one). -/
theorem c1_split_mid_record_drops_response :
    handleMCPResponse [1] "\x7b\"id\":1,\"res" = ([1], []) ∧
    handleMCPResponse (handleMCPResponse [1] "\x7b\"id\":1,\"res").1
        "ult\":\x7b\x7d\x7d\n" = ([1], []) ∧
    handleMCPResponse [1] "\x7b\"id\":1,\"result\":\x7b\x7d\x7d\n"
      = ([], [(1, .resolved (some (.obj [])))]) :=
  ⟨rfl, rfl, rfl⟩

/-- Claim C2: the spec requires every still-pending entry to be rejected
immediately on subprocess termination.  The installed `exit` listener never
touches the pending map and rejects nothing, for every exit code; on exit
code 0 it does not even terminate the client, so a pending caller keeps
waiting (until its timeout).  This contradicts the claim (a code bug). -/
theorem c2_subprocess_exit_leaves_pending (code : Option Int) (pending : List Nat) :
    (onProcessExit code pending).1 = pending ∧
    (onProcessExit code pending).2.rejected = [] ∧
    (onProcessExit (some 0) pending).2.clientExits = false := by
  refine ⟨?_, ?_, rfl⟩ <;> unfold onProcessExit <;> split <;> rfl

/-- Claim C3: the ids allocated by any `n` calls of `getNextId()` in one
session are strictly increasing in allocation order (hence pairwise
distinct), all greater than zero, and allocating further ids only appends
strictly larger ones (the counter is never reset, no id is ever reused). -/
theorem c3_allocated_ids_distinct_increasing_positive (n : Nat) :
    (sessionIds n).Pairwise (· < ·) ∧
    (sessionIds n).Nodup ∧
    (∀ x ∈ sessionIds n, 0 < x) ∧
    (∀ m : Nat, sessionIds (n + m) = sessionIds n ++ allocIds n m) := by
  have key : ∀ k, sessionIds k = List.range' 1 k := by
    intro k; rw [sessionIds, initialRequestId, allocIds_eq_range']
  refine ⟨?_, ?_, ?_, ?_⟩
  · rw [key]; exact List.pairwise_lt_range' 1 n
  · rw [key]; exact List.nodup_range' 1 n
  · intro x hx
    rw [key] at hx
    obtain ⟨i, hi, rfl⟩ := List.mem_range'.1 hx
    omega
  · intro m
    rw [key, key, allocIds_eq_range']
    have h := List.range'_append 1 n m 1
    simp only [one_mul] at h
    rw [Nat.add_comm n m, ← h, Nat.add_comm 1 n]

/-- Witness for C3 at `n = 3`, `m = 2`, id `2`. -/
theorem c3_allocated_ids_witness :
    (sessionIds 3).Pairwise (· < ·) ∧
    2 ∈ sessionIds 3 ∧ 0 < 2 ∧
    sessionIds 5 = sessionIds 3 ++ allocIds 3 2 := by
  obtain ⟨h1, _, h3, h4⟩ := c3_allocated_ids_distinct_increasing_positive 3
  exact ⟨h1, by decide, h3 2 (by decide), h4 2⟩

/-- Claim C4: processing a line whose carried id has a pending entry first
removes the entry (the resulting map is the old one with the id erased and
no longer contains it) and fires exactly one callback; re-processing the
same line afterwards, or processing any line whose id has no pending entry
(or that does not parse), leaves the map unchanged and fires nothing — and
every case returns normally (the discard never throws). -/
theorem c4_response_fulfillment_at_most_once (pending : List Nat) (line : String) :
    (lineRespId line = none → handleMCPLine pending line = (pending, [])) ∧
    (∀ id, lineRespId line = some id → id ∉ pending →
        handleMCPLine pending line = (pending, [])) ∧
    (∀ id, lineRespId line = some id → id ∈ pending → pending.Nodup →
        (handleMCPLine pending line).1 = pending.erase id ∧
        id ∉ (handleMCPLine pending line).1 ∧
        (handleMCPLine pending line).2.length = 1 ∧
        handleMCPLine (handleMCPLine pending line).1 line
          = ((handleMCPLine pending line).1, [])) := by
  refine ⟨?_, ?_, ?_⟩
  · intro h
    unfold lineRespId at h
    unfold handleMCPLine
    cases hp : parseJson line with
    | none => rfl
    | some resp =>
      rw [hp] at h
      dsimp only at h ⊢
      rw [h]
  · intro id h hmem
    unfold lineRespId at h
    unfold handleMCPLine
    cases hp : parseJson line with
    | none => rfl
    | some resp =>
      rw [hp] at h
      dsimp only at h ⊢
      rw [h]
      simp [hmem]
  · intro id h hmem hnd
    unfold lineRespId at h
    have hnm : id ∉ pending.erase id := hnd.not_mem_erase
    have h1 : (handleMCPLine pending line).1 = pending.erase id ∧
        (handleMCPLine pending line).2.length = 1 := by
      unfold handleMCPLine
      cases hp : parseJson line with
      | none => rw [hp] at h; exact absurd h (by simp)
      | some resp =>
        rw [hp] at h
        dsimp only at h ⊢
        rw [h]
        simp only [hmem, if_pos]
        rcases hge : jGet resp "error" with _ | err
        · simp [jTruthyOpt, hge]
        · cases ht : jTruthy err <;> simp [jTruthyOpt, hge, ht]
    have h2 : handleMCPLine (pending.erase id) line = (pending.erase id, []) := by
      unfold handleMCPLine
      cases hp : parseJson line with
      | none => rfl
      | some resp =>
        rw [hp] at h
        dsimp only at h ⊢
        rw [h]
        simp [hnm]
    refine ⟨h1.1, ?_, h1.2, ?_⟩
    · rw [h1.1]; exact hnm
    · rw [h1.1]; exact h2

/-- Witness for C4: a concrete response line for id 1 against the pending
map `[1, 2]`, then the same (duplicate) line against the resulting map. -/
theorem c4_fulfillment_witness :
    lineRespId "\x7b\"id\":1,\"result\":\x7b\x7d\x7d" = some 1 ∧
    (handleMCPLine [1, 2] "\x7b\"id\":1,\"result\":\x7b\x7d\x7d").1
      = ([1, 2] : List Nat).erase 1 ∧
    1 ∉ (handleMCPLine [1, 2] "\x7b\"id\":1,\"result\":\x7b\x7d\x7d").1 ∧
    (handleMCPLine [1, 2] "\x7b\"id\":1,\"result\":\x7b\x7d\x7d").2.length = 1 ∧
    handleMCPLine (handleMCPLine [1, 2] "\x7b\"id\":1,\"result\":\x7b\x7d\x7d").1
        "\x7b\"id\":1,\"result\":\x7b\x7d\x7d"
      = ((handleMCPLine [1, 2] "\x7b\"id\":1,\"result\":\x7b\x7d\x7d").1, []) := by
  have h := (c4_response_fulfillment_at_most_once [1, 2]
      "\x7b\"id\":1,\"result\":\x7b\x7d\x7d").2.2 1 rfl (by decide) (by decide)
  exact ⟨rfl, h.1, h.2.1, h.2.2.1, h.2.2.2⟩

/-- Claim C5: sending a request arms a 20000 ms timer and stores the pending
entry; when the timer fires, the entry is removed from the map (which then
no longer contains the id) and the caller is rejected with the
timeout-specific outcome, which is distinct from a provider-error rejection
and from a resolution. -/
theorem c5_request_timeout_rejects_and_removes (pending : List Nat) (id : Nat)
    (h : id ∉ pending) :
    mcpTimeoutMs = 20000 ∧
    (sendMCPRequest pending id).2 = mcpTimeoutMs ∧
    id ∈ (sendMCPRequest pending id).1 ∧
    (onMCPTimeout (sendMCPRequest pending id).1 id).2 = (id, .timeoutRejected) ∧
    id ∉ (onMCPTimeout (sendMCPRequest pending id).1 id).1 ∧
    (∀ msg, MCPOutcome.timeoutRejected ≠ MCPOutcome.errorRejected msg) ∧
    (∀ r, MCPOutcome.timeoutRejected ≠ MCPOutcome.resolved r) := by
  refine ⟨rfl, rfl, ?_, rfl, ?_, ?_, ?_⟩
  · simp [sendMCPRequest, h]
  · simp only [onMCPTimeout, sendMCPRequest, h, if_neg, ite_false]
    rw [List.erase_append_right _ h]
    simp [h]
  · intro msg hc
    cases hc
  · intro r hc
    cases hc

/-- Witness for C5 at the empty pending map and id 1. -/
theorem c5_timeout_witness :
    mcpTimeoutMs = 20000 ∧
    1 ∈ (sendMCPRequest [] 1).1 ∧
    (onMCPTimeout (sendMCPRequest [] 1).1 1).2 = (1, .timeoutRejected) ∧
    1 ∉ (onMCPTimeout (sendMCPRequest [] 1).1 1).1 := by
  obtain ⟨a, _, c, d, e, _, _⟩ := c5_request_timeout_rejects_and_removes [] 1 (by decide)
  exact ⟨a, c, d, e⟩

/-- Claim C6: every list-style handler builds its provider request with
`page_size = Math.min(limit, 100)`; in particular a requested limit of 500
yields a provider page size of exactly 100. -/
theorem c6_provider_page_size_clamped (q : Option JVal) (limit : Int) :
    (searchNotionRequest q limit).pageSize = min limit 100 ∧
    (listRecentPagesRequest limit).pageSize = min limit 100 ∧
    (getPageTitlesOnlyRequest q limit).pageSize = min limit 100 ∧
    (listAllPagesRequest limit).pageSize = min limit 100 ∧
    (searchNotionRequest q 500).pageSize = 100 := by
  refine ⟨rfl, rfl, rfl, rfl, ?_⟩
  show min (500 : Int) 100 = 100
  decide

/-- Claim C7: a `tools/call` whose name is none of the five registered tools
returns a normal response record with `isError: true` whose text carries
`Unknown tool: <name>`; the thrown error is caught, so the handler returns
for every input. -/
theorem c7_unknown_tool_error_response (env : ProviderEnv) (args : CallArgs)
    (name : String) (h : name ∉ knownTools) :
    callToolHandler env name args
      = ⟨jsonStringify (.obj [("error", .str ("Unknown tool: " ++ name))]), true⟩ := by
  simp only [knownTools, List.mem_cons, List.mem_singleton, not_or] at h
  obtain ⟨h1, h2, h3, h4, h5⟩ := h
  simp [callToolHandler, callToolBody, h1, h2, h3, h4, h5]

/-- Witness for C7 at `name = "not_a_tool"` with a trivial provider. -/
theorem c7_unknown_tool_witness :
    "not_a_tool" ∉ knownTools ∧
    callToolHandler ⟨fun _ => .error "", fun _ => .error "", fun _ => 0⟩
        "not_a_tool" {}
      = ⟨"\x7b\"error\":\"Unknown tool: not_a_tool\"\x7d", true⟩ := by
  constructor
  · decide
  · rw [c7_unknown_tool_error_response ⟨fun _ => .error "", fun _ => .error "", fun _ => 0⟩
      {} "not_a_tool" (by decide)]
    rfl

/-- Claim C8: when the content-provider collaborator fails, each tool
handler catches the failure and degrades: the four list-style tools return
the empty list, `getPageContent` returns the sentinel
`'Error retrieving content'` (and `getPagePreview` its own sentinel). -/
theorem c8_provider_failure_contained (e : String)
    (lb : BlocksRequest → Except String (List JVal))
    (se : NotionSearchRequest → Except String (List JVal))
    (dm : Option JVal → Int) (q : Option JVal) (limit : Int) (sortBy : JVal)
    (pageId : Option JVal) :
    searchNotion ⟨fun _ => .error e, lb, dm⟩ q limit = [] ∧
    listRecentPages ⟨fun _ => .error e, lb, dm⟩ limit sortBy = [] ∧
    getPageTitlesOnly ⟨fun _ => .error e, lb, dm⟩ q limit = [] ∧
    listAllPages ⟨fun _ => .error e, lb, dm⟩ limit = [] ∧
    getPageContent ⟨se, fun _ => .error e, dm⟩ pageId = "Error retrieving content" ∧
    getPagePreview ⟨se, fun _ => .error e, dm⟩ pageId = "Preview unavailable" :=
  ⟨rfl, rfl, rfl, rfl, rfl, rfl⟩

/-- Claim C9: both text extractors are total functions of their structural
input (they are Lean functions, so they return on every `JVal`), and they
return their sentinels whenever the expected fields are absent: `extractTitle`
returns `'Untitled'` when no well-formed title property is present, and
`extractBlockText` returns `''` when the block, its type, its type-keyed
data, or an array-valued rich-text field is missing. -/
theorem c9_extractors_return_sentinels (page block : JVal) :
    (wellFormedTitleProp page = false → extractTitle page = .str "Untitled") ∧
    (blockTextFieldsPresent block = false → extractBlockText block = "") := by
  constructor
  · intro h
    unfold wellFormedTitleProp at h
    unfold extractTitle
    cases hp : jGet page "properties" with
    | none => rfl
    | some props =>
      rw [hp] at h
      dsimp only at h ⊢
      by_cases ht : jTruthy props
      · simp only [ht, Bool.true_and] at h
        simp only [ht, not_true, Bool.not_true, Bool.false_eq_true, if_false]
        have hn : (jEntries props).findSome? (fun kv => titleCandidate kv.2) = none := by
          rw [List.findSome?_eq_none_iff]
          intro kv hkv
          have h2 := (List.any_eq_false.mp h) kv hkv
          cases hc : titleCandidate kv.2 with
          | none => rfl
          | some t => rw [hc] at h2; simp at h2
        rw [hn]
      · simp [ht]
  · intro h
    unfold blockTextFieldsPresent at h
    unfold extractBlockText
    by_cases hb : jTruthy block
    · simp only [hb, not_true, Bool.not_true, Bool.false_eq_true, if_false] at h ⊢
      cases htv : jGet block "type" with
      | none => rfl
      | some typeVal =>
        rw [htv] at h
        dsimp only at h ⊢
        by_cases ht2 : jTruthy typeVal
        · simp only [ht2, not_true, Bool.not_true, Bool.false_eq_true, if_false] at h ⊢
          cases hbd : jGet block (jsToString typeVal) with
          | none => rfl
          | some blockData =>
            rw [hbd] at h
            dsimp only at h ⊢
            by_cases ht3 : jTruthy blockData
            · simp only [ht3, not_true, Bool.not_true, Bool.false_eq_true, if_false] at h ⊢
              simp only [Bool.or_eq_false_iff] at h
              simp [h.1, h.2]
            · simp [ht3]
        · simp [ht2]
    · simp [hb]

/-- Witness for C9: a page whose property bag has no title-typed property,
and a block whose `type` has no corresponding data field. -/
theorem c9_extractors_witness :
    wellFormedTitleProp (JVal.obj [("properties", JVal.obj [("Name", JVal.str "x")])])
      = false ∧
    extractTitle (JVal.obj [("properties", JVal.obj [("Name", JVal.str "x")])])
      = .str "Untitled" ∧
    blockTextFieldsPresent (JVal.obj [("type", JVal.str "paragraph")]) = false ∧
    extractBlockText (JVal.obj [("type", JVal.str "paragraph")]) = "" := by
  refine ⟨rfl, ?_, rfl, ?_⟩
  · exact (c9_extractors_return_sentinels
      (JVal.obj [("properties", JVal.obj [("Name", JVal.str "x")])])
      (JVal.obj [("type", JVal.str "paragraph")])).1 rfl
  · exact (c9_extractors_return_sentinels
      (JVal.obj [("properties", JVal.obj [("Name", JVal.str "x")])])
      (JVal.obj [("type", JVal.str "paragraph")])).2 rfl

/-- Claim C10: for each list-style tool, an explicit `limit` of `0` (or the
falsy `NaN`) is indistinguishable from an absent `limit` — `(limit) || d`
substitutes the tool's documented default, 10 (20 for `list_all_pages`). -/
theorem c10_falsy_limit_uses_default (env : ProviderEnv) (args : CallArgs) :
    callToolHandler env "search_notion" { args with limit := some (.int 0) }
      = callToolHandler env "search_notion" { args with limit := none } ∧
    callToolHandler env "search_notion" { args with limit := some .nan }
      = callToolHandler env "search_notion" { args with limit := none } ∧
    callToolHandler env "list_recent_pages" { args with limit := some (.int 0) }
      = callToolHandler env "list_recent_pages" { args with limit := none } ∧
    callToolHandler env "get_page_titles_only" { args with limit := some (.int 0) }
      = callToolHandler env "get_page_titles_only" { args with limit := none } ∧
    callToolHandler env "list_all_pages" { args with limit := some (.int 0) }
      = callToolHandler env "list_all_pages" { args with limit := none } ∧
    jsNumOrDefault (some (.int 0)) 10 = 10 ∧
    jsNumOrDefault (some .nan) 10 = 10 ∧
    jsNumOrDefault none 10 = 10 ∧
    jsNumOrDefault (some (.int 0)) 20 = 20 :=
  ⟨rfl, rfl, rfl, rfl, rfl, rfl, rfl, rfl, rfl⟩
